import Mathlib

/-!
Shallow embedding of the tradingtool backend (strategies, backtest executor,
download engine, signal engine, live tracker, rate-limit client) and proofs
of the specification claims about it.  Prices and monetary quantities are
modelled over `ℚ`; pandas `NaN` warm-up values become `Option`; raised
`ValueError`s become `Except.error`.
-/

namespace TradingTool

/-! ## Core data model (backend/strategies/base.py) -/

/-- One OHLCV bar.  `open_price` is the `open` column (renamed: `open` is a
Lean keyword); `open_time` is the bar's open timestamp in ms. -/
structure Candle where
  open_price : ℚ
  high : ℚ
  low : ℚ
  close : ℚ
  open_time : ℤ
  deriving DecidableEq, Repr

inductive Side where
  | long
  | short
  | flat
  deriving DecidableEq, Repr

/-- The `PositionState` dataclass. -/
structure PositionState where
  side : Side := .flat
  entry_price : ℚ := 0
  entry_time : ℤ := 0
  stop_price : ℚ := 0
  quantity : ℚ := 0
  deriving DecidableEq, Repr

inductive SignalAction where
  | entry_long
  | entry_short
  | exit_long
  | exit_short
  | stop_long
  | stop_short
  deriving DecidableEq, Repr

/-- The `Signal` dataclass. -/
structure Signal where
  action : SignalAction
  price : ℚ := 0
  stop_price : ℚ := 0
  deriving DecidableEq, Repr

/-! ## Breakout strategy (backend/strategies/breakout.py)

`init` precomputes `high.shift(1).rolling(n).max()` and the three analogous
series; a value is present (non-NaN) at index `t` exactly when the shifted
window `[t-n, t-1]` is fully inside the frame, i.e. `n ≤ t` (and the window
is non-empty). -/

def listMax : List ℚ → Option ℚ
  | [] => none
  | x :: xs => some (xs.foldl max x)

def listMin : List ℚ → Option ℚ
  | [] => none
  | x :: xs => some (xs.foldl min x)

/-- The values `xs[t-n], …, xs[t-1]` seen by `shift(1).rolling(n)` at `t`. -/
def rollWindow (xs : List ℚ) (n t : ℕ) : List ℚ :=
  (xs.drop (t - n)).take n

/-- Value of `xs.shift(1).rolling(n).max()` at row `t` (`none` = NaN). -/
def shiftRollMax (xs : List ℚ) (n t : ℕ) : Option ℚ :=
  if n ≤ t then listMax (rollWindow xs n t) else none

/-- Value of `xs.shift(1).rolling(n).min()` at row `t` (`none` = NaN). -/
def shiftRollMin (xs : List ℚ) (n t : ℕ) : Option ℚ :=
  if n ≤ t then listMin (rollWindow xs n t) else none

/-- Parameters of `BreakoutStrategy` relevant to `on_candle`
(`modo_ejecucion` and `coste_total_bps` are consumed by the executor). -/
structure BreakoutParams where
  N_entrada : ℕ := 20
  M_salida : ℕ := 10
  stop_pct : ℚ := 2/100
  habilitar_long : Bool := true
  habilitar_short : Bool := true
  deriving DecidableEq, Repr

/-- Value of `self.max_prev.iloc[t]` after `BreakoutStrategy.init`. -/
def breakoutMaxPrev (candles : List Candle) (n t : ℕ) : Option ℚ :=
  shiftRollMax (candles.map Candle.high) n t

/-- Value of `self.min_prev.iloc[t]` after `BreakoutStrategy.init`. -/
def breakoutMinPrev (candles : List Candle) (n t : ℕ) : Option ℚ :=
  shiftRollMin (candles.map Candle.low) n t

/-- Value of `self.min_exit.iloc[t]` after `BreakoutStrategy.init`. -/
def breakoutMinExit (candles : List Candle) (m t : ℕ) : Option ℚ :=
  shiftRollMin (candles.map Candle.low) m t

/-- Value of `self.max_exit.iloc[t]` after `BreakoutStrategy.init`. -/
def breakoutMaxExit (candles : List Candle) (m t : ℕ) : Option ℚ :=
  shiftRollMax (candles.map Candle.high) m t

/-- The body of `BreakoutStrategy.on_candle`. -/
def breakoutOnCandle (p : BreakoutParams) (candles : List Candle) (t : ℕ)
    (candle : Candle) (state : PositionState) : List Signal :=
  match breakoutMaxPrev candles p.N_entrada t, breakoutMinPrev candles p.N_entrada t,
        breakoutMinExit candles p.M_salida t, breakoutMaxExit candles p.M_salida t with
  | some max_prev, some min_prev, some min_exit, some max_exit =>
    if state.side = .long then
      if candle.low ≤ state.stop_price then
        [{ action := .stop_long, price := state.stop_price }]
      else if candle.close < min_exit then
        [{ action := .exit_long, price := candle.close }]
      else []
    else if state.side = .short then
      if candle.high ≥ state.stop_price then
        [{ action := .stop_short, price := state.stop_price }]
      else if candle.close > max_exit then
        [{ action := .exit_short, price := candle.close }]
      else []
    else
      if p.habilitar_long ∧ candle.close > max_prev then
        [{ action := .entry_long, price := candle.close,
           stop_price := min_prev * (1 - p.stop_pct) }]
      else if p.habilitar_short ∧ candle.close < min_prev then
        [{ action := .entry_short, price := candle.close,
           stop_price := max_prev * (1 + p.stop_pct) }]
      else []
  | _, _, _, _ => []

end TradingTool

namespace TradingTool

/-- C1 witness frame: two candles, `N_entrada = M_salida = 1`. -/
def c1Frame : List Candle :=
  [⟨100, 100, 90, 100, 0⟩, ⟨100, 110, 95, 105, 1⟩]

def c1Params : BreakoutParams :=
  { N_entrada := 1, M_salida := 1, stop_pct := 2/100 }

example : breakoutMaxPrev c1Frame 1 1 = some 100 := by decide
example : breakoutOnCandle c1Params c1Frame 1 c1Frame[1] {} =
    [{ action := .entry_long, price := 105, stop_price := 90 * (1 - 2/100) }] := by
  rfl

/-- C1.  For every frame and bar `t` at which all four precomputed lookback
levels are defined, `on_candle` in the flat state returns an `entry_long`
signal with stop `min_prev·(1−stop_pct)` exactly when long entries are enabled
and `close > max_prev`, and an `entry_short` with stop `max_prev·(1+stop_pct)`
exactly when short entries are enabled, no long entry fired, and
`close < min_prev`; on every warm-up bar (some lookback window not yet
filled) `on_candle` returns no signals regardless of position state. -/
theorem breakout_flat_entry_warmup :
    (∀ (p : BreakoutParams) (candles : List Candle) (t : ℕ) (candle : Candle)
       (state : PositionState) (mx mn me mxe : ℚ),
       breakoutMaxPrev candles p.N_entrada t = some mx →
       breakoutMinPrev candles p.N_entrada t = some mn →
       breakoutMinExit candles p.M_salida t = some me →
       breakoutMaxExit candles p.M_salida t = some mxe →
       state.side = .flat →
       ((breakoutOnCandle p candles t candle state =
           [{ action := .entry_long, price := candle.close,
              stop_price := mn * (1 - p.stop_pct) }]
         ↔ (p.habilitar_long ∧ mx < candle.close)) ∧
        (breakoutOnCandle p candles t candle state =
           [{ action := .entry_short, price := candle.close,
              stop_price := mx * (1 + p.stop_pct) }]
         ↔ (p.habilitar_short ∧ ¬(p.habilitar_long ∧ mx < candle.close) ∧
            candle.close < mn)))) ∧
    (∀ (p : BreakoutParams) (candles : List Candle) (t : ℕ) (candle : Candle)
       (state : PositionState),
       (breakoutMaxPrev candles p.N_entrada t = none ∨
        breakoutMinPrev candles p.N_entrada t = none ∨
        breakoutMinExit candles p.M_salida t = none ∨
        breakoutMaxExit candles p.M_salida t = none) →
       breakoutOnCandle p candles t candle state = []) := by
  constructor
  · intro p candles t candle state mx mn me mxe h1 h2 h3 h4 hside
    simp only [breakoutOnCandle, h1, h2, h3, h4, hside]
    by_cases hl : p.habilitar_long <;> by_cases hc : mx < candle.close <;>
      by_cases hs : p.habilitar_short <;> by_cases hc2 : candle.close < mn <;>
      simp [hl, hc, hs, hc2, Signal.mk.injEq]
  · intro p candles t candle state h
    unfold breakoutOnCandle
    rcases hmx : breakoutMaxPrev candles p.N_entrada t with _ | mx <;>
    rcases hmn : breakoutMinPrev candles p.N_entrada t with _ | mn <;>
    rcases hme : breakoutMinExit candles p.M_salida t with _ | me <;>
    rcases hmxe : breakoutMaxExit candles p.M_salida t with _ | mxe <;>
    simp_all

/-- Witness for C1 at a concrete frame: two candles, `N = M = 1`, flat state,
close 105 above `max_prev = 100`, with all four levels defined. -/
theorem breakout_flat_entry_warmup_inst :
    breakoutOnCandle c1Params c1Frame 1 c1Frame[1] {} =
      [{ action := .entry_long, price := (105 : ℚ),
         stop_price := 90 * (1 - (2/100 : ℚ)) }] :=
  ((breakout_flat_entry_warmup.1 c1Params c1Frame 1 c1Frame[1] {} 100 90 90 100
      (by rfl) (by rfl) (by rfl) (by rfl) rfl).1).2 (by constructor <;> decide)

/-! ## Support/Resistance strategy (backend/strategies/support_resistance.py)

`_compute_zigzag` is a single forward pass keeping a direction flag, the
running extreme, and the last confirmed swing low/high (NaN → `none`). -/

structure SRParams where
  reversal_pct : ℚ := 3/100
  stop_pct : ℚ := 2/100
  habilitar_long : Bool := true
  habilitar_short : Bool := true
  deriving DecidableEq, Repr

/-- Loop state of `_compute_zigzag`.  `direction_up = true` means the pass is
tracking towards a potential swing high. -/
structure ZigState where
  direction_up : Bool
  current_high : ℚ
  current_low : ℚ
  confirmed_support : Option ℚ
  confirmed_resistance : Option ℚ
  deriving DecidableEq, Repr

/-- One iteration of the `_compute_zigzag` loop body. -/
def zigStep (reversal_pct : ℚ) (s : ZigState) (c : Candle) : ZigState :=
  if s.direction_up then
    let ch := if c.high > s.current_high then c.high else s.current_high
    if 0 < ch ∧ c.low ≤ ch * (1 - reversal_pct) then
      { direction_up := false, current_high := ch, current_low := c.low,
        confirmed_support := s.confirmed_support, confirmed_resistance := some ch }
    else
      { s with current_high := ch }
  else
    let cl := if c.low < s.current_low then c.low else s.current_low
    if 0 < cl ∧ c.high ≥ cl * (1 + reversal_pct) then
      { direction_up := true, current_high := c.high, current_low := cl,
        confirmed_support := some cl, confirmed_resistance := s.confirmed_resistance }
    else
      { s with current_low := cl }

/-- Bootstrap state: direction `up`, extremes seeded from the first candle. -/
def zigInit (c0 : Candle) : ZigState :=
  { direction_up := true, current_high := c0.high, current_low := c0.low,
    confirmed_support := none, confirmed_resistance := none }

/-- States after each bar of the zigzag pass. -/
def zigStates (r : ℚ) (s : ZigState) : List Candle → List ZigState
  | [] => []
  | c :: cs =>
    let s2 := zigStep r s c
    s2 :: zigStates r s2 cs

/-- Value of `self.last_support[t]` after `SupportResistanceStrategy.init`. -/
def srLastSupport (r : ℚ) (candles : List Candle) (t : ℕ) : Option ℚ :=
  match candles with
  | [] => none
  | c0 :: _ => ((zigStates r (zigInit c0) candles).get? t).bind ZigState.confirmed_support

/-- Value of `self.last_resistance[t]` after `SupportResistanceStrategy.init`. -/
def srLastResistance (r : ℚ) (candles : List Candle) (t : ℕ) : Option ℚ :=
  match candles with
  | [] => none
  | c0 :: _ => ((zigStates r (zigInit c0) candles).get? t).bind ZigState.confirmed_resistance

/-- The body of `SupportResistanceStrategy.on_candle`. -/
def srOnCandle (p : SRParams) (candles : List Candle) (t : ℕ)
    (candle : Candle) (state : PositionState) : List Signal :=
  match srLastSupport p.reversal_pct candles t, srLastResistance p.reversal_pct candles t with
  | some support, some resistance =>
    if state.side = .long then
      if candle.low ≤ state.stop_price then
        [{ action := .stop_long, price := state.stop_price }]
      else if candle.close < support then
        [{ action := .exit_long, price := candle.close }]
      else []
    else if state.side = .short then
      if candle.high ≥ state.stop_price then
        [{ action := .stop_short, price := state.stop_price }]
      else if candle.close > resistance then
        [{ action := .exit_short, price := candle.close }]
      else []
    else
      if p.habilitar_long ∧ candle.close > resistance then
        [{ action := .entry_long, price := candle.close,
           stop_price := support * (1 - p.stop_pct) }]
      else if p.habilitar_short ∧ candle.close < support then
        [{ action := .entry_short, price := candle.close,
           stop_price := resistance * (1 + p.stop_pct) }]
      else []
  | _, _ => []

/-- C2 witness frame for the zigzag: resistance 100 confirmed at bar 1,
support 85 confirmed at bar 2 (with `reversal_pct = 1/10`). -/
def c2SrFrame : List Candle :=
  [⟨100, 100, 100, 100, 0⟩, ⟨95, 100, 85, 90, 1⟩, ⟨95, 100, 90, 95, 2⟩]

example : srLastSupport (1/10) c2SrFrame 2 = some 85 := by
  norm_num [srLastSupport, zigStates, zigStep, zigInit, c2SrFrame]
example : srLastResistance (1/10) c2SrFrame 2 = some 100 := by
  norm_num [srLastResistance, zigStates, zigStep, zigInit, c2SrFrame]

/-- C2.  Signal-priority contract of both reference strategies: past
warm-up (all levels defined), with `side = long` a touched stop
(`low ≤ stop_price`) yields exactly the `stop_long` signal — the
exit-on-close rule is not consulted; an untouched stop with the close-based
exit condition yields exactly one `exit_long`; symmetrically for
`side = short` on `high`; entry signals only ever appear in the flat state,
and at most one signal is emitted per bar. -/
theorem strategy_signal_priority :
    (∀ (p : BreakoutParams) (candles : List Candle) (t : ℕ) (candle : Candle)
       (state : PositionState) (mx mn me mxe : ℚ),
       breakoutMaxPrev candles p.N_entrada t = some mx →
       breakoutMinPrev candles p.N_entrada t = some mn →
       breakoutMinExit candles p.M_salida t = some me →
       breakoutMaxExit candles p.M_salida t = some mxe →
       ((state.side = .long → candle.low ≤ state.stop_price →
           breakoutOnCandle p candles t candle state =
             [{ action := .stop_long, price := state.stop_price }]) ∧
        (state.side = .long → state.stop_price < candle.low → candle.close < me →
           breakoutOnCandle p candles t candle state =
             [{ action := .exit_long, price := candle.close }]) ∧
        (state.side = .short → candle.high ≥ state.stop_price →
           breakoutOnCandle p candles t candle state =
             [{ action := .stop_short, price := state.stop_price }]) ∧
        (state.side = .short → candle.high < state.stop_price → mxe < candle.close →
           breakoutOnCandle p candles t candle state =
             [{ action := .exit_short, price := candle.close }]) ∧
        (state.side ≠ .flat →
           ∀ sig ∈ breakoutOnCandle p candles t candle state,
             sig.action ≠ .entry_long ∧ sig.action ≠ .entry_short) ∧
        (breakoutOnCandle p candles t candle state).length ≤ 1)) ∧
    (∀ (q : SRParams) (candles : List Candle) (t : ℕ) (candle : Candle)
       (state : PositionState) (sup res : ℚ),
       srLastSupport q.reversal_pct candles t = some sup →
       srLastResistance q.reversal_pct candles t = some res →
       ((state.side = .long → candle.low ≤ state.stop_price →
           srOnCandle q candles t candle state =
             [{ action := .stop_long, price := state.stop_price }]) ∧
        (state.side = .long → state.stop_price < candle.low → candle.close < sup →
           srOnCandle q candles t candle state =
             [{ action := .exit_long, price := candle.close }]) ∧
        (state.side = .short → candle.high ≥ state.stop_price →
           srOnCandle q candles t candle state =
             [{ action := .stop_short, price := state.stop_price }]) ∧
        (state.side = .short → candle.high < state.stop_price → res < candle.close →
           srOnCandle q candles t candle state =
             [{ action := .exit_short, price := candle.close }]) ∧
        (state.side ≠ .flat →
           ∀ sig ∈ srOnCandle q candles t candle state,
             sig.action ≠ .entry_long ∧ sig.action ≠ .entry_short) ∧
        (srOnCandle q candles t candle state).length ≤ 1)) := by
  constructor
  · intro p candles t candle state mx mn me mxe h1 h2 h3 h4
    simp only [breakoutOnCandle, h1, h2, h3, h4]
    refine ⟨?_, ?_, ?_, ?_, ?_, ?_⟩
    · intro hside hlow
      simp [hside, hlow]
    · intro hside hlow hc
      simp [hside, not_le.mpr hlow, hc]
    · intro hside hhigh
      simp [hside, hhigh]
    · intro hside hhigh hc
      simp [hside, not_le.mpr hhigh, hc]
    · intro hside
      cases hs : state.side
      · simp [hs]
        split_ifs <;> simp
      · simp [hs]
        split_ifs <;> simp
      · exact absurd hs hside
    · cases hs : state.side <;> simp [hs] <;> split_ifs <;> simp
  · intro q candles t candle state sup res h1 h2
    simp only [srOnCandle, h1, h2]
    refine ⟨?_, ?_, ?_, ?_, ?_, ?_⟩
    · intro hside hlow
      simp [hside, hlow]
    · intro hside hlow hc
      simp [hside, not_le.mpr hlow, hc]
    · intro hside hhigh
      simp [hside, hhigh]
    · intro hside hhigh hc
      simp [hside, not_le.mpr hhigh, hc]
    · intro hside
      cases hs : state.side
      · simp [hs]
        split_ifs <;> simp
      · simp [hs]
        split_ifs <;> simp
      · exact absurd hs hside
    · cases hs : state.side <;> simp [hs] <;> split_ifs <;> simp

/-- Witness for C2: the breakout in a long position with the stop touched
emits exactly the `stop_long` signal, and the support/resistance strategy in
a short position with the stop touched emits exactly the `stop_short`
signal, at concrete frames where all levels are defined. -/
theorem strategy_signal_priority_inst :
    breakoutOnCandle c1Params c1Frame 1 c1Frame[1]
        { side := .long, entry_price := 100, entry_time := 0,
          stop_price := 96, quantity := 1 } =
      [{ action := .stop_long, price := (96 : ℚ) }] ∧
    srOnCandle { reversal_pct := 1/10 } c2SrFrame 2 c2SrFrame[2]
        { side := .short, entry_price := 90, entry_time := 1,
          stop_price := 98, quantity := 1 } =
      [{ action := .stop_short, price := (98 : ℚ) }] := by
  constructor
  · exact (strategy_signal_priority.1 c1Params c1Frame 1 c1Frame[1]
      { side := .long, entry_price := 100, entry_time := 0,
        stop_price := 96, quantity := 1 } 100 90 90 100
      (by rfl) (by rfl) (by rfl) (by rfl)).1 rfl (by norm_num [c1Frame])
  · exact (strategy_signal_priority.2 { reversal_pct := 1/10 } c2SrFrame 2 c2SrFrame[2]
      { side := .short, entry_price := 90, entry_time := 1,
        stop_price := 98, quantity := 1 } 85 100
      (by norm_num [srLastSupport, zigStates, zigStep, zigInit, c2SrFrame])
      (by norm_num [srLastResistance, zigStates, zigStep, zigInit, c2SrFrame])).2.2.1
      rfl (by norm_num [c2SrFrame])

/-! ## Download engine (backend/download_engine.py) -/

/-- The `INTERVAL_MS` dict: interval duration in milliseconds, `none` for an
unrecognized interval. -/
def INTERVAL_MS : String → Option ℤ
  | "1m" => some 60000
  | "3m" => some 180000
  | "5m" => some 300000
  | "15m" => some 900000
  | "30m" => some 1800000
  | "1h" => some 3600000
  | "2h" => some 7200000
  | "4h" => some 14400000
  | "6h" => some 21600000
  | "8h" => some 28800000
  | "12h" => some 43200000
  | "1d" => some 86400000
  | "3d" => some 259200000
  | "1w" => some 604800000
  | "1M" => some 2592000000
  | _ => none

/-- Alignment prologue of `_expected_open_times`: `(start_ms // step) * step`,
bumped by one step when it fell below `start_ms` (Python `//` is floor
division, `Int.fdiv` here). -/
def alignUp (start_ms step : ℤ) : ℤ :=
  let a := (start_ms.fdiv step) * step
  if a < start_ms then a + step else a

/-- The `while t < end_ms` accumulation loop of `_expected_open_times`.
The loop only terminates for a positive step; every entry of `INTERVAL_MS`
is positive, so the guard `0 < step` is vacuous on reachable inputs. -/
def collectTimes (step end_ms t : ℤ) : List ℤ :=
  if _h : 0 < step ∧ t < end_ms then
    t :: collectTimes step end_ms (t + step)
  else []
termination_by (end_ms - t).toNat
decreasing_by
  omega

/-- The `_expected_open_times` function; a raised `ValueError` is `Except.error`. -/
def expected_open_times (start_ms end_ms : ℤ) (interval : String) :
    Except String (List ℤ) :=
  match INTERVAL_MS interval with
  | none => .error ("Unknown interval: " ++ interval)
  | some step => .ok (collectTimes step end_ms (alignUp start_ms step))

/-- Status transition of `cancel_job`.  The SQL `UPDATE … WHERE status IN
('pending','running')` touches the row exactly when the current status is
pending or running; the function returns `rowcount > 0`. -/
inductive JobStatus where
  | pending
  | running
  | completed
  | failed
  | cancelled
  deriving DecidableEq, Repr, Fintype

def cancelJob (s : JobStatus) : JobStatus × Bool :=
  if s = .pending ∨ s = .running then (.cancelled, true) else (s, false)

theorem INTERVAL_MS_pos (interval : String) (step : ℤ)
    (h : INTERVAL_MS interval = some step) : 0 < step := by
  unfold INTERVAL_MS at h
  split at h <;> simp_all <;> omega

theorem collectTimes_head (step end_ms t : ℤ) :
    (collectTimes step end_ms t).head? =
      if 0 < step ∧ t < end_ms then some t else none := by
  by_cases hP : 0 < step ∧ t < end_ms
  · rw [collectTimes, dif_pos hP, if_pos hP]
    rfl
  · rw [collectTimes, dif_neg hP, if_neg hP]
    rfl

theorem collectTimes_mem (step end_ms : ℤ) (hstep : 0 < step) :
    ∀ t x, x ∈ collectTimes step end_ms t ↔
      t ≤ x ∧ x < end_ms ∧ step ∣ (x - t) := by
  have main : ∀ n t, (end_ms - t).toNat = n → ∀ x,
      (x ∈ collectTimes step end_ms t ↔ t ≤ x ∧ x < end_ms ∧ step ∣ (x - t)) := by
    intro n
    induction n using Nat.strong_induction_on with
    | _ n ih =>
      intro t hn x
      by_cases hlt : t < end_ms
      · rw [collectTimes, dif_pos ⟨hstep, hlt⟩, List.mem_cons,
          ih (end_ms - (t + step)).toNat (by omega) (t + step) rfl x]
        constructor
        · rintro (rfl | ⟨hx1, hx2, k, hk⟩)
          · exact ⟨le_refl x, hlt, ⟨0, by ring⟩⟩
          · exact ⟨by omega, hx2, ⟨k + 1, by linarith⟩⟩
        · rintro ⟨hx1, hx2, k, hk⟩
          have hk0 : 0 ≤ k := by
            rcases le_or_lt 0 k with h | h
            · exact h
            · nlinarith
          rcases eq_or_lt_of_le hk0 with h | h
          · left
            rw [← h, mul_zero] at hk
            omega
          · right
            have h1k : (1 : ℤ) ≤ k := h
            have hsk : step * 1 ≤ step * k :=
              mul_le_mul_of_nonneg_left h1k (le_of_lt hstep)
            exact ⟨by linarith, hx2, ⟨k - 1, by ring_nf; linarith⟩⟩
      · rw [collectTimes, dif_neg (by omega)]
        simp only [List.not_mem_nil, false_iff]
        rintro ⟨hx1, hx2, -⟩
        omega
  intro t
  exact main (end_ms - t).toNat t rfl

theorem collectTimes_chain (step end_ms : ℤ) :
    ∀ t, List.Chain' (fun a b => b = a + step) (collectTimes step end_ms t) := by
  have main : ∀ n t, (end_ms - t).toNat = n →
      List.Chain' (fun a b => b = a + step) (collectTimes step end_ms t) := by
    intro n
    induction n using Nat.strong_induction_on with
    | _ n ih =>
      intro t hn
      by_cases hP : 0 < step ∧ t < end_ms
      · rw [collectTimes, dif_pos hP, List.chain'_cons']
        refine ⟨?_, ih (end_ms - (t + step)).toNat (by omega) (t + step) rfl⟩
        intro y hy
        rw [collectTimes_head] at hy
        by_cases hQ : 0 < step ∧ t + step < end_ms
        · rw [if_pos hQ] at hy
          simp only [Option.mem_def, Option.some.injEq] at hy
          omega
        · rw [if_neg hQ] at hy
          simp at hy
      · rw [collectTimes, dif_neg hP]
        exact List.chain'_nil
  intro t
  exact main (end_ms - t).toNat t rfl

theorem alignUp_spec (start_ms step : ℤ) (hstep : 0 < step) :
    step ∣ alignUp start_ms step ∧ start_ms ≤ alignUp start_ms step ∧
      alignUp start_ms step < start_ms + step := by
  have hediv : start_ms.fdiv step = start_ms / step :=
    Int.fdiv_eq_ediv start_ms (le_of_lt hstep)
  have hA : (start_ms.fdiv step) * step = start_ms - start_ms % step := by
    rw [hediv, Int.emod_def]
    ring
  have h1 : 0 ≤ start_ms % step := Int.emod_nonneg start_ms (ne_of_gt hstep)
  have h2 : start_ms % step < step := Int.emod_lt_of_pos start_ms hstep
  have hd : step ∣ (start_ms.fdiv step) * step := dvd_mul_left step _
  simp only [alignUp]
  by_cases hc : (start_ms.fdiv step) * step < start_ms
  · simp only [if_pos hc]
    exact ⟨dvd_add hd (dvd_refl step), by omega, by omega⟩
  · simp only [if_neg hc]
    exact ⟨hd, by omega, by omega⟩

/-- C3.  For every `start_ms`, `end_ms` and recognized interval with step
`s`, `_expected_open_times` returns a list in which consecutive elements
differ by exactly `s` (hence strictly ascending), every element is divisible
by `s` and `< end_ms`, the first element (when present) is
`align_up(start_ms, s)` — the smallest multiple of `s` that is `≥ start_ms` —
and every multiple of `s` in `[align_up(start_ms, s), end_ms)` appears. -/
theorem expected_open_times_spec (start_ms end_ms : ℤ) (interval : String)
    (step : ℤ) (hstep : INTERVAL_MS interval = some step) (L : List ℤ)
    (hL : expected_open_times start_ms end_ms interval = .ok L) :
    List.Chain' (fun a b => b = a + step) L ∧
    List.Chain' (· < ·) L ∧
    (∀ x ∈ L, step ∣ x ∧ x < end_ms) ∧
    L.head? = (if alignUp start_ms step < end_ms
               then some (alignUp start_ms step) else none) ∧
    (step ∣ alignUp start_ms step ∧ start_ms ≤ alignUp start_ms step ∧
      alignUp start_ms step < start_ms + step) ∧
    (∀ x, step ∣ x → alignUp start_ms step ≤ x → x < end_ms → x ∈ L) := by
  have hpos := INTERVAL_MS_pos interval step hstep
  have hLdef : L = collectTimes step end_ms (alignUp start_ms step) := by
    unfold expected_open_times at hL
    rw [hstep] at hL
    injection hL with h
    exact h.symm
  obtain ⟨hd, hge, hlt⟩ := alignUp_spec start_ms step hpos
  subst hLdef
  refine ⟨collectTimes_chain step end_ms _, ?_, ?_, ?_, ⟨hd, hge, hlt⟩, ?_⟩
  · exact (collectTimes_chain step end_ms _).imp (fun a b h => by omega)
  · intro x hx
    rw [collectTimes_mem step end_ms hpos] at hx
    obtain ⟨h1, h2, h3⟩ := hx
    exact ⟨by simpa using dvd_add h3 hd, h2⟩
  · rw [collectTimes_head]
    simp [hpos]
  · intro x hdx hge2 hlt2
    rw [collectTimes_mem step end_ms hpos]
    exact ⟨hge2, hlt2, dvd_sub hdx hd⟩

/-- Expected open times for the C3 witness run. -/
def c3List : List ℤ := [60000, 120000, 180000, 240000, 300000, 360000]

set_option maxRecDepth 4000 in
/-- Witness for C3 at `start_ms = 100`, `end_ms = 400000`, interval `1m`. -/
theorem expected_open_times_spec_inst :
    List.Chain' (fun a b => b = a + 60000) c3List ∧
    (∀ x ∈ c3List, (60000 : ℤ) ∣ x ∧ x < 400000) ∧
    c3List.head? = some 60000 := by
  have ha : alignUp 100 60000 = 60000 := by decide
  have hok : expected_open_times 100 400000 "1m" = .ok c3List := by
    have h1 : INTERVAL_MS "1m" = some 60000 := rfl
    unfold expected_open_times
    rw [h1]
    show Except.ok (collectTimes 60000 400000 (alignUp 100 60000)) = .ok c3List
    rw [ha]
    repeat (rw [collectTimes]; norm_num)
    norm_num [c3List]
  have h := expected_open_times_spec 100 400000 "1m" 60000 rfl c3List hok
  refine ⟨h.1, h.2.2.1, ?_⟩
  rw [h.2.2.2.1]
  decide

/-- C8.  `cancel_job` sets a job's status to `cancelled` iff the current
status is `pending` or `running` and returns `true` exactly when that
transition happened; terminal statuses (`completed`, `failed`, `cancelled`)
are left unchanged, so they are absorbing under cancellation. -/
theorem cancel_job_transitions :
    ∀ s : JobStatus,
      ((cancelJob s).2 = true ↔ (s = .pending ∨ s = .running)) ∧
      ((s = .pending ∨ s = .running) → (cancelJob s).1 = .cancelled) ∧
      ((s = .completed ∨ s = .failed ∨ s = .cancelled) →
        cancelJob s = (s, false)) := by
  decide

/-- Witness for C8: a running job cancels, a completed job is untouched. -/
theorem cancel_job_transitions_inst :
    (cancelJob .running).1 = .cancelled ∧
      cancelJob .completed = (.completed, false) :=
  ⟨(cancel_job_transitions .running).2.1 (Or.inr rfl),
   (cancel_job_transitions .completed).2.2 (Or.inl rfl)⟩

/-! ## Backtest executor (backend/backtest_engine.py)

The loop `for t in range(n)` of `run_backtest`, with the strategy's
`on_candle` abstracted as a function argument.  Early return on the
bankruptcy check is modelled by the `liquidated` flag: once set, the
remaining iterations are skipped.  Display-only rounding of the trade-log
`pnl`/`fees` fields and the `duration_candles` column are omitted. -/

inductive ExecMode where
  | open_next
  | close_current
  deriving DecidableEq, Repr

structure TradeLogEntry where
  entry_time : ℤ
  exit_time : ℤ
  side : Side
  entry_price : ℚ
  exit_price : ℚ
  pnl : ℚ
  exit_reason : SignalAction
  deriving DecidableEq, Repr

structure BTState where
  equity : ℚ
  equity_curve : List ℚ
  trade_log : List TradeLogEntry
  state : PositionState
  pending_entry : Option Signal
  liquidated : Bool
  deriving DecidableEq, Repr

def initBTState (initial_capital : ℚ) : BTState :=
  { equity := initial_capital, equity_curve := [], trade_log := [],
    state := {}, pending_entry := none, liquidated := false }

/-- A strategy's `on_candle` after `init`: bar index, row, position. -/
def StratFn : Type :=
  ℕ → Candle → PositionState → List Signal

/-- The body of `_compute_pnl`. -/
def computePnl (state : PositionState) (exec_price cost_factor equity : ℚ) : ℚ :=
  let gross := if state.side = .long then state.quantity * (exec_price - state.entry_price)
               else state.quantity * (state.entry_price - exec_price)
  gross - |state.quantity * exec_price| * cost_factor

/-- Exit execution price selection inside the signals loop. -/
def exitExecPrice (mode : ExecMode) (sig : Signal) (state : PositionState)
    (open_price close_price : ℚ) : ℚ :=
  if sig.action = .stop_long then
    (if open_price < state.stop_price then min sig.price open_price else sig.price)
  else if sig.action = .stop_short then
    (if open_price > state.stop_price then max sig.price open_price else sig.price)
  else
    (if mode = .close_current then close_price else open_price)

def isExitAction : SignalAction → Bool
  | .stop_long => true
  | .stop_short => true
  | .exit_long => true
  | .exit_short => true
  | _ => false

/-- Execution of the deferred entry at the current bar's open
(`open_next` mode only). -/
def applyPendingEntry (mode : ExecMode) (cost_factor : ℚ) (candle : Candle)
    (s : BTState) : BTState :=
  match s.pending_entry, mode with
  | some sig, .open_next =>
    if sig.action = .entry_long then
      { s with pending_entry := none,
               equity := s.equity - s.equity * cost_factor,
               state := { side := .long, entry_price := candle.open_price,
                          entry_time := candle.open_time,
                          stop_price := sig.stop_price,
                          quantity := s.equity / candle.open_price } }
    else if sig.action = .entry_short then
      { s with pending_entry := none,
               equity := s.equity - s.equity * cost_factor,
               state := { side := .short, entry_price := candle.open_price,
                          entry_time := candle.open_time,
                          stop_price := sig.stop_price,
                          quantity := s.equity / candle.open_price } }
    else { s with pending_entry := none }
  | _, _ => s

/-- Outcome of the `for sig in signals` loop: either the loop ran to
completion (with the exit flag), or the bankruptcy check returned early. -/
inductive LoopOutcome where
  | normal (s : BTState) (exit_executed : Bool)
  | earlyReturn (s : BTState)
  deriving Repr

/-- The `for sig in signals` exit/stop loop with bankruptcy check. -/
def signalsLoop (mode : ExecMode) (cost_factor : ℚ) (candle : Candle) :
    BTState → List Signal → LoopOutcome
  | s, [] => .normal s false
  | s, sig :: rest =>
    if isExitAction sig.action ∧ s.state.side ≠ .flat then
      let exec_price := exitExecPrice mode sig s.state candle.open_price candle.close
      let pnl := computePnl s.state exec_price cost_factor s.equity
      .normal
        { s with
          equity := s.equity + pnl,
          trade_log := s.trade_log ++
            [{ entry_time := s.state.entry_time, exit_time := candle.open_time,
               side := s.state.side, entry_price := s.state.entry_price,
               exit_price := exec_price, pnl := pnl, exit_reason := sig.action }],
          state := {} }
        true
    else if s.equity ≤ 0 then
      .earlyReturn { s with liquidated := true }
    else
      signalsLoop mode cost_factor candle s rest

/-- The entry-signal loop (`break` after the first entry). -/
def entryLoop (mode : ExecMode) (cost_factor : ℚ) (candle : Candle) :
    BTState → List Signal → BTState
  | s, [] => s
  | s, sig :: rest =>
    if sig.action = .entry_long ∨ sig.action = .entry_short then
      match mode with
      | .open_next => { s with pending_entry := some sig }
      | .close_current =>
        { s with equity := s.equity - s.equity * cost_factor,
                 state := { side := if sig.action = .entry_long then .long else .short,
                            entry_price := candle.close,
                            entry_time := candle.open_time,
                            stop_price := sig.stop_price,
                            quantity := s.equity / candle.close } }
    else entryLoop mode cost_factor candle s rest

/-- Mark-to-market equity at the current bar's close. -/
def mtmEquity (s : BTState) (close_price : ℚ) : ℚ :=
  if s.state.side = .long then
    s.equity + s.state.quantity * (close_price - s.state.entry_price)
  else if s.state.side = .short then
    s.equity + s.state.quantity * (s.state.entry_price - close_price)
  else s.equity

/-- One iteration of the `for t in range(n)` loop.  A liquidated state is
returned unchanged (the Python function has already returned). -/
def btBar (strat : StratFn) (mode : ExecMode) (cost_factor : ℚ) (t : ℕ)
    (candle : Candle) (s : BTState) : BTState :=
  if s.liquidated then s
  else
    let s1 := applyPendingEntry mode cost_factor candle s
    let signals := strat t candle s1.state
    match signalsLoop mode cost_factor candle s1 signals with
    | .earlyReturn s2 => s2
    | .normal s2 exit_executed =>
      let s3 := if exit_executed = false ∧ s2.state.side = .flat then
                  entryLoop mode cost_factor candle s2 signals
                else s2
      { s3 with equity_curve := s3.equity_curve ++ [mtmEquity s3 candle.close] }

/-- State after the first `k` iterations of the bar loop. -/
def btRun (strat : StratFn) (mode : ExecMode) (cost_factor : ℚ)
    (candles : List Candle) (initial_capital : ℚ) : ℕ → BTState
  | 0 => initBTState initial_capital
  | k + 1 =>
    let s := btRun strat mode cost_factor candles initial_capital k
    match candles.get? k with
    | some c => btBar strat mode cost_factor k c s
    | none => s

structure BacktestResult where
  equity_curve : List ℚ
  trade_log : List TradeLogEntry
  liquidated : Bool
  error : Option String
  deriving DecidableEq, Repr

/-- The `run_backtest` function over an in-memory frame (the DB load and strategy
registry lookups are the callers' concern). -/
def run_backtest (strat : StratFn) (mode : ExecMode) (cost_factor : ℚ)
    (initial_capital : ℚ) (candles : List Candle) : BacktestResult :=
  if candles.length < 2 then
    { equity_curve := [], trade_log := [], liquidated := false,
      error := some "Insufficient candle data for backtest" }
  else
    let s := btRun strat mode cost_factor candles initial_capital candles.length
    { equity_curve := s.equity_curve, trade_log := s.trade_log,
      liquidated := s.liquidated, error := none }

/-- C5.  In the backtest executor, a `stop_long` emitted while a long
position is held (the reference strategies emit the stop at the position's
`stop_price`) records an exit price of `min(stop_price, open)` when
`open < stop_price` and `stop_price` otherwise; symmetrically a `stop_short`
in a short position records `max(stop_price, open)` when `open > stop_price`
and `stop_price` otherwise. -/
theorem backtest_stop_exec_price :
    ∀ (mode : ExecMode) (cost_factor : ℚ) (candle : Candle) (s : BTState)
      (sig : Signal) (rest : List Signal),
      (s.state.side = .long → sig.action = .stop_long →
        sig.price = s.state.stop_price →
        signalsLoop mode cost_factor candle s (sig :: rest) =
          .normal
            { s with
              equity := s.equity + computePnl s.state
                (if candle.open_price < s.state.stop_price
                 then min s.state.stop_price candle.open_price
                 else s.state.stop_price) cost_factor s.equity,
              trade_log := s.trade_log ++
                [{ entry_time := s.state.entry_time,
                   exit_time := candle.open_time,
                   side := s.state.side, entry_price := s.state.entry_price,
                   exit_price := if candle.open_price < s.state.stop_price
                                 then min s.state.stop_price candle.open_price
                                 else s.state.stop_price,
                   pnl := computePnl s.state
                     (if candle.open_price < s.state.stop_price
                      then min s.state.stop_price candle.open_price
                      else s.state.stop_price) cost_factor s.equity,
                   exit_reason := .stop_long }],
              state := {} } true) ∧
      (s.state.side = .short → sig.action = .stop_short →
        sig.price = s.state.stop_price →
        signalsLoop mode cost_factor candle s (sig :: rest) =
          .normal
            { s with
              equity := s.equity + computePnl s.state
                (if candle.open_price > s.state.stop_price
                 then max s.state.stop_price candle.open_price
                 else s.state.stop_price) cost_factor s.equity,
              trade_log := s.trade_log ++
                [{ entry_time := s.state.entry_time,
                   exit_time := candle.open_time,
                   side := s.state.side, entry_price := s.state.entry_price,
                   exit_price := if candle.open_price > s.state.stop_price
                                 then max s.state.stop_price candle.open_price
                                 else s.state.stop_price,
                   pnl := computePnl s.state
                     (if candle.open_price > s.state.stop_price
                      then max s.state.stop_price candle.open_price
                      else s.state.stop_price) cost_factor s.equity,
                   exit_reason := .stop_short }],
              state := {} } true) := by
  intro mode cost_factor candle s sig rest
  constructor
  · intro hside hact hprice
    have hcond : (isExitAction sig.action ∧ s.state.side ≠ .flat) := by
      rw [hact, hside]
      exact ⟨rfl, by simp⟩
    rw [signalsLoop, if_pos hcond]
    simp only [exitExecPrice, hact, hprice, hside]
    rfl
  · intro hside hact hprice
    have hcond : (isExitAction sig.action ∧ s.state.side ≠ .flat) := by
      rw [hact, hside]
      exact ⟨rfl, by simp⟩
    rw [signalsLoop, if_pos hcond]
    simp only [exitExecPrice, hact, hprice, hside]
    rfl

/-- C5 witness position: long from 100 with stop 96, quantity 1. -/
def c5State : BTState :=
  { equity := 1000, equity_curve := [], trade_log := [],
    state := { side := .long, entry_price := 100, entry_time := 0,
               stop_price := 96, quantity := 1 },
    pending_entry := none, liquidated := false }

/-- Witness for C5: the bar gaps down (`open = 95 < stop = 96`), so the
stop fill is `min(96, 95) = 95`. -/
theorem backtest_stop_exec_price_inst :
    signalsLoop .open_next 0 ⟨95, 99, 94, 97, 5⟩ c5State
        [{ action := .stop_long, price := 96 }] =
      .normal
        { equity := 995, equity_curve := [],
          trade_log := [{ entry_time := 0, exit_time := 5, side := .long,
                          entry_price := 100, exit_price := 95, pnl := -5,
                          exit_reason := .stop_long }],
          state := {}, pending_entry := none, liquidated := false } true := by
  have h := (backtest_stop_exec_price .open_next 0 ⟨95, 99, 94, 97, 5⟩ c5State
      { action := .stop_long, price := 96 } []).1 rfl rfl rfl
  rw [h]
  norm_num [c5State, computePnl, min_def]

theorem applyPendingEntry_frame (mode : ExecMode) (cost_factor : ℚ)
    (candle : Candle) (s : BTState) :
    (applyPendingEntry mode cost_factor candle s).equity_curve = s.equity_curve ∧
    (applyPendingEntry mode cost_factor candle s).liquidated = s.liquidated := by
  unfold applyPendingEntry
  rcases s.pending_entry with _ | sig <;> cases mode <;> simp <;> split_ifs <;> simp

theorem signalsLoop_normal_frame (mode : ExecMode) (cost_factor : ℚ)
    (candle : Candle) :
    ∀ (sigs : List Signal) (s s2 : BTState) (ex : Bool),
      signalsLoop mode cost_factor candle s sigs = .normal s2 ex →
      s2.equity_curve = s.equity_curve ∧ s2.liquidated = s.liquidated := by
  intro sigs
  induction sigs with
  | nil =>
    intro s s2 ex h
    rw [signalsLoop] at h
    cases h
    exact ⟨rfl, rfl⟩
  | cons sig rest ih =>
    intro s s2 ex h
    rw [signalsLoop] at h
    split_ifs at h
    · cases h
      exact ⟨rfl, rfl⟩
    · exact ih s s2 ex h

theorem signalsLoop_early_liq (mode : ExecMode) (cost_factor : ℚ)
    (candle : Candle) :
    ∀ (sigs : List Signal) (s s2 : BTState),
      signalsLoop mode cost_factor candle s sigs = .earlyReturn s2 →
      s2.liquidated = true := by
  intro sigs
  induction sigs with
  | nil =>
    intro s s2 h
    rw [signalsLoop] at h
    cases h
  | cons sig rest ih =>
    intro s s2 h
    rw [signalsLoop] at h
    split_ifs at h
    · injection h with h'
      rw [← h']
    · exact ih s s2 h

theorem entryLoop_frame (mode : ExecMode) (cost_factor : ℚ) (candle : Candle) :
    ∀ (sigs : List Signal) (s : BTState),
      (entryLoop mode cost_factor candle s sigs).equity_curve = s.equity_curve ∧
      (entryLoop mode cost_factor candle s sigs).liquidated = s.liquidated := by
  intro sigs
  induction sigs with
  | nil =>
    intro s
    exact ⟨rfl, rfl⟩
  | cons sig rest ih =>
    intro s
    rcases sig with ⟨act, price, stop⟩
    cases act <;> cases mode <;> first
      | exact ih s
      | exact ⟨rfl, rfl⟩

theorem btBar_liq_mono (strat : StratFn) (mode : ExecMode) (cost_factor : ℚ)
    (t : ℕ) (candle : Candle) (s : BTState) (h : s.liquidated = true) :
    btBar strat mode cost_factor t candle s = s := by
  rw [btBar, if_pos h]

theorem btBar_not_liq (strat : StratFn) (mode : ExecMode) (cost_factor : ℚ)
    (t : ℕ) (candle : Candle) (s : BTState)
    (h : (btBar strat mode cost_factor t candle s).liquidated = false) :
    s.liquidated = false ∧
    (btBar strat mode cost_factor t candle s).equity_curve =
      s.equity_curve ++
        [mtmEquity (btBar strat mode cost_factor t candle s) candle.close] := by
  have hs' : s.liquidated = false := by
    rcases hliq : s.liquidated
    · rfl
    · rw [btBar_liq_mono strat mode cost_factor t candle s hliq, hliq] at h
      cases h
  refine ⟨hs', ?_⟩
  rw [btBar, if_neg (by rw [hs']; simp)] at h ⊢
  rcases hout : signalsLoop mode cost_factor candle
      (applyPendingEntry mode cost_factor candle s)
      (strat t candle (applyPendingEntry mode cost_factor candle s).state) with
    ⟨s2, ex⟩ | s2
  · simp only [hout]
    have h2 := signalsLoop_normal_frame mode cost_factor candle _ _ s2 ex hout
    have h1 := applyPendingEntry_frame mode cost_factor candle s
    by_cases hex : ex = false ∧ s2.state.side = .flat
    · have h3 := entryLoop_frame mode cost_factor candle
        (strat t candle (applyPendingEntry mode cost_factor candle s).state) s2
      simp only [if_pos hex, mtmEquity]
      rw [h3.1, h2.1, h1.1]
    · simp only [if_neg hex, mtmEquity]
      rw [h2.1, h1.1]
  · simp only [hout] at h
    have := signalsLoop_early_liq mode cost_factor candle _ _ s2 hout
    rw [h] at this
    cases this

theorem btRun_curve_inv (strat : StratFn) (mode : ExecMode) (cost_factor : ℚ)
    (candles : List Candle) (initial_capital : ℚ) :
    ∀ k, (btRun strat mode cost_factor candles initial_capital k).liquidated = false →
      (btRun strat mode cost_factor candles initial_capital k).equity_curve.length =
        min k candles.length ∧
      (∀ t c, t < k → candles.get? t = some c →
        (btRun strat mode cost_factor candles initial_capital k).equity_curve.get? t =
          some (mtmEquity
            (btRun strat mode cost_factor candles initial_capital (t + 1)) c.close)) := by
  intro k
  induction k with
  | zero =>
    intro _
    refine ⟨by simp [btRun, initBTState], ?_⟩
    intro t c ht
    omega
  | succ k ih =>
    intro hliq
    rcases hget : candles.get? k with _ | c
    · have heq : btRun strat mode cost_factor candles initial_capital (k + 1) =
          btRun strat mode cost_factor candles initial_capital k := by
        rw [btRun, hget]
      rw [heq] at hliq ⊢
      obtain ⟨hlen, hval⟩ := ih hliq
      have hkn : candles.length ≤ k := List.get?_eq_none.mp hget
      constructor
      · rw [hlen]
        omega
      · intro t c2 ht hg
        rcases Nat.lt_succ_iff_lt_or_eq.mp ht with h | h
        · exact hval t c2 h hg
        · subst h
          rw [hget] at hg
          cases hg
    · have heq : btRun strat mode cost_factor candles initial_capital (k + 1) =
          btBar strat mode cost_factor k c
            (btRun strat mode cost_factor candles initial_capital k) := by
        rw [btRun, hget]
      rw [heq] at hliq ⊢
      obtain ⟨hprev, hcurve⟩ := btBar_not_liq strat mode cost_factor k c _ hliq
      obtain ⟨hlen, hval⟩ := ih hprev
      have hkn : k < candles.length := by
        by_contra hcon
        push_neg at hcon
        rw [List.get?_eq_none.mpr hcon] at hget
        cases hget
      constructor
      · rw [hcurve, List.length_append, hlen]
        simp
        omega
      · intro t c2 ht hg
        rcases Nat.lt_succ_iff_lt_or_eq.mp ht with h | h
        · rw [hcurve, List.get?_append (by rw [hlen]; omega)]
          exact hval t c2 h hg
        · subst h
          rw [hget] at hg
          injection hg with hc
          subst hc
          rw [hcurve, List.get?_append_right (by rw [hlen]; omega)]
          have hidx : t - (btRun strat mode cost_factor candles
              initial_capital t).equity_curve.length = 0 := by
            rw [hlen]
            omega
          rw [hidx, heq]
          rfl

/-- C4, amended.  Every backtest run over `n ≥ 2` candles that returns
no error and does not end liquidated produces an equity curve of length
exactly `n` whose `t`-th value is the mark-to-market equity at bar `t`'s
close: `equity + qty·(close − entry)` when long, `equity + qty·(entry −
close)` when short, and `equity` when flat, for the executor state after
bar `t`.  (A liquidated run returns early with a shorter curve — see the
counterexample.) -/
theorem backtest_equity_curve_mtm :
    ∀ (strat : StratFn) (mode : ExecMode) (cost_factor initial_capital : ℚ)
      (candles : List Candle),
      2 ≤ candles.length →
      (run_backtest strat mode cost_factor initial_capital candles).error = none →
      (run_backtest strat mode cost_factor initial_capital candles).liquidated = false →
      (run_backtest strat mode cost_factor initial_capital
          candles).equity_curve.length = candles.length ∧
      (∀ t c, candles.get? t = some c →
        (run_backtest strat mode cost_factor initial_capital
            candles).equity_curve.get? t =
          some (let s := btRun strat mode cost_factor candles initial_capital (t + 1)
                if s.state.side = .long then
                  s.equity + s.state.quantity * (c.close - s.state.entry_price)
                else if s.state.side = .short then
                  s.equity + s.state.quantity * (s.state.entry_price - c.close)
                else s.equity)) := by
  intro strat mode cost_factor initial_capital candles hlen herr hliq
  have hnot2 : ¬(candles.length < 2) := by omega
  rw [run_backtest, if_neg hnot2] at herr hliq ⊢
  obtain ⟨hl, hv⟩ := btRun_curve_inv strat mode cost_factor candles initial_capital
    candles.length hliq
  constructor
  · rw [hl]
    omega
  · intro t c hg
    have ht : t < candles.length := by
      by_contra hcon
      push_neg at hcon
      rw [List.get?_eq_none.mpr hcon] at hg
      cases hg
    exact hv t c ht hg

/-- A strategy that emits no signals (used to instantiate C4's witness). -/
def noSignals : StratFn := fun _ _ _ => []

/-- Witness for C4 at a concrete two-candle run with no signals. -/
theorem backtest_equity_curve_mtm_inst :
    (run_backtest noSignals .open_next 0 10000 c1Frame).equity_curve.length = 2 ∧
    (run_backtest noSignals .open_next 0 10000 c1Frame).equity_curve.get? 0 =
      some 10000 := by
  have h := backtest_equity_curve_mtm noSignals .open_next 0 10000 c1Frame
    (by decide) rfl rfl
  refine ⟨h.1, ?_⟩
  have h0 := h.2 0 c1Frame[0] rfl
  rw [h0]
  rfl

/-- C4 counterexample frame: a short entry at bar 1 (close 10 under
`min_prev = 100`) is stopped out at bar 2 at `150 = 100·(1+stop_pct)` for a
loss of `1000·140 = 140000 > equity`, and the entry signal of bar 3 trips
the bankruptcy check, returning early. -/
def c4Frame : List Candle :=
  [⟨100, 100, 100, 100, 0⟩, ⟨100, 100, 10, 10, 1⟩,
   ⟨10, 200, 10, 200, 2⟩, ⟨200, 300, 200, 300, 3⟩]

def c4Params : BreakoutParams := { N_entrada := 1, M_salida := 1, stop_pct := 1/2 }

/-- C4 counterexample.  A backtest run over 4 candles with `error = none`
whose equity curve has only 3 values: the liquidated early return truncates
the curve, contradicting the claim that every error-free run yields a curve
of length `n`. -/
theorem backtest_equity_curve_liquidation_cex :
    (run_backtest (breakoutOnCandle c4Params c4Frame) .close_current 0 10000
        c4Frame).error = none ∧
    (run_backtest (breakoutOnCandle c4Params c4Frame) .close_current 0 10000
        c4Frame).liquidated = true ∧
    (run_backtest (breakoutOnCandle c4Params c4Frame) .close_current 0 10000
        c4Frame).equity_curve.length = 3 ∧
    c4Frame.length = 4 := by
  have e1 : btRun (breakoutOnCandle c4Params c4Frame) .close_current 0 c4Frame
      10000 1 =
      { equity := 10000, equity_curve := [10000], trade_log := [],
        state := {}, pending_entry := none, liquidated := false } := by
    rw [btRun]
    norm_num +decide [btRun, btBar, applyPendingEntry, breakoutOnCandle, breakoutMaxPrev,
      breakoutMinPrev, breakoutMinExit, breakoutMaxExit, shiftRollMax,
      shiftRollMin, rollWindow, listMax, listMin, signalsLoop, entryLoop,
      mtmEquity, initBTState, c4Frame, c4Params]
  have e2 : btRun (breakoutOnCandle c4Params c4Frame) .close_current 0 c4Frame
      10000 2 =
      { equity := 10000, equity_curve := [10000, 10000], trade_log := [],
        state := { side := .short, entry_price := 10, entry_time := 1,
                   stop_price := 150, quantity := 1000 },
        pending_entry := none, liquidated := false } := by
    rw [btRun, e1]
    norm_num +decide [btBar, applyPendingEntry, breakoutOnCandle, breakoutMaxPrev,
      breakoutMinPrev, breakoutMinExit, breakoutMaxExit, shiftRollMax,
      shiftRollMin, rollWindow, listMax, listMin, signalsLoop, entryLoop,
      isExitAction, mtmEquity, c4Frame, c4Params]
  have e3 : btRun (breakoutOnCandle c4Params c4Frame) .close_current 0 c4Frame
      10000 3 =
      { equity := -130000, equity_curve := [10000, 10000, -130000],
        trade_log := [{ entry_time := 1, exit_time := 2, side := .short,
                        entry_price := 10, exit_price := 150, pnl := -140000,
                        exit_reason := .stop_short }],
        state := {}, pending_entry := none, liquidated := false } := by
    rw [btRun, e2]
    norm_num +decide [btBar, applyPendingEntry, breakoutOnCandle, breakoutMaxPrev,
      breakoutMinPrev, breakoutMinExit, breakoutMaxExit, shiftRollMax,
      shiftRollMin, rollWindow, listMax, listMin, signalsLoop, entryLoop,
      isExitAction, exitExecPrice, computePnl, mtmEquity, c4Frame, c4Params]
  have e4 : btRun (breakoutOnCandle c4Params c4Frame) .close_current 0 c4Frame
      10000 4 =
      { equity := -130000, equity_curve := [10000, 10000, -130000],
        trade_log := [{ entry_time := 1, exit_time := 2, side := .short,
                        entry_price := 10, exit_price := 150, pnl := -140000,
                        exit_reason := .stop_short }],
        state := {}, pending_entry := none, liquidated := true } := by
    rw [btRun, e3]
    norm_num +decide [btBar, applyPendingEntry, breakoutOnCandle, breakoutMaxPrev,
      breakoutMinPrev, breakoutMinExit, breakoutMaxExit, shiftRollMax,
      shiftRollMin, rollWindow, listMax, listMin, signalsLoop, entryLoop,
      isExitAction, mtmEquity, c4Frame, c4Params]
  have hlen : c4Frame.length = 4 := by norm_num [c4Frame]
  have hrun : run_backtest (breakoutOnCandle c4Params c4Frame) .close_current 0
      10000 c4Frame =
      { equity_curve := [10000, 10000, -130000],
        trade_log := [{ entry_time := 1, exit_time := 2, side := .short,
                        entry_price := 10, exit_price := 150, pnl := -140000,
                        exit_reason := .stop_short }],
        liquidated := true, error := none } := by
    rw [run_backtest, if_neg (by rw [hlen]; omega), hlen, e4]
  rw [hrun]
  refine ⟨rfl, rfl, rfl, hlen⟩

/-! ## Live tracker (backend/live_tracker.py) -/

/-- The fields of a `sim_trades` row read by `_check_intrabar_stops`. -/
structure SimTrade where
  side : Side
  entry_price : ℚ
  stop_trigger : ℚ
  quantity : ℚ
  portfolio : ℚ
  fees : ℚ
  deriving DecidableEq, Repr

/-- The columns written when an intrabar stop closes a trade (both the
trade's and the signal's status become `closed`). -/
structure ClosedStop where
  exit_price : ℚ
  pnl : ℚ
  pnl_pct : ℚ
  fees : ℚ
  exit_reason : String
  trade_status : String
  signal_status : String
  deriving DecidableEq, Repr

/-- Per-trade body of `_check_intrabar_stops`: trigger test against the
observed ticker `price`, then close at `stop_trigger` (not at the observed
price).  `none` = the trade is left open. -/
def checkIntrabarStop (trade : SimTrade) (cost_bps : ℚ) (price : ℚ) :
    Option ClosedStop :=
  if (trade.side = .long ∧ price ≤ trade.stop_trigger) ∨
     (trade.side = .short ∧ price ≥ trade.stop_trigger) then
    let exec_price := trade.stop_trigger
    let cost_factor := cost_bps / 10000
    let gross_pnl := if trade.side = .long then
                       trade.quantity * (exec_price - trade.entry_price)
                     else trade.quantity * (trade.entry_price - exec_price)
    let exit_fee := |trade.quantity * exec_price| * cost_factor
    let net_pnl := gross_pnl - exit_fee
    some { exit_price := exec_price, pnl := net_pnl,
           pnl_pct := if 0 < trade.portfolio then net_pnl / trade.portfolio else 0,
           fees := trade.fees + exit_fee, exit_reason := "stop_intrabar",
           trade_status := "closed", signal_status := "closed" }
  else none

/-- C6.  In the live tracker's intrabar stop pass, a long SimTrade whose
observed price is `≤ stop_trigger` closes with `exit_price = stop_trigger`
(not the observed price), `pnl = qty·(stop_trigger − entry) −
|qty·stop_trigger|·cost_bps/10000`, `pnl_pct = pnl/portfolio`, reason
`stop_intrabar`, and the signal closed; symmetrically for shorts at
`price ≥ stop_trigger`.  In particular, with entry 100, stop_trigger 93.1,
qty 100, cost 0 and observed price 92, the trade closes at 93.1 with
`pnl = −690`. -/
theorem intrabar_stop_close_spec :
    (∀ (trade : SimTrade) (cost_bps price : ℚ),
       trade.side = .long → price ≤ trade.stop_trigger → 0 < trade.portfolio →
       checkIntrabarStop trade cost_bps price =
         some { exit_price := trade.stop_trigger,
                pnl := trade.quantity * (trade.stop_trigger - trade.entry_price) -
                       |trade.quantity * trade.stop_trigger| * (cost_bps / 10000),
                pnl_pct := (trade.quantity * (trade.stop_trigger - trade.entry_price) -
                            |trade.quantity * trade.stop_trigger| * (cost_bps / 10000)) /
                           trade.portfolio,
                fees := trade.fees + |trade.quantity * trade.stop_trigger| *
                        (cost_bps / 10000),
                exit_reason := "stop_intrabar", trade_status := "closed",
                signal_status := "closed" }) ∧
    (∀ (trade : SimTrade) (cost_bps price : ℚ),
       trade.side = .short → trade.stop_trigger ≤ price → 0 < trade.portfolio →
       checkIntrabarStop trade cost_bps price =
         some { exit_price := trade.stop_trigger,
                pnl := trade.quantity * (trade.entry_price - trade.stop_trigger) -
                       |trade.quantity * trade.stop_trigger| * (cost_bps / 10000),
                pnl_pct := (trade.quantity * (trade.entry_price - trade.stop_trigger) -
                            |trade.quantity * trade.stop_trigger| * (cost_bps / 10000)) /
                           trade.portfolio,
                fees := trade.fees + |trade.quantity * trade.stop_trigger| *
                        (cost_bps / 10000),
                exit_reason := "stop_intrabar", trade_status := "closed",
                signal_status := "closed" }) ∧
    checkIntrabarStop
        { side := .long, entry_price := 100, stop_trigger := 931/10,
          quantity := 100, portfolio := 10000, fees := 0 } 0 92 =
      some { exit_price := 931/10, pnl := -690, pnl_pct := -690/10000,
             fees := 0, exit_reason := "stop_intrabar",
             trade_status := "closed", signal_status := "closed" } := by
  refine ⟨?_, ?_, ?_⟩
  · intro trade cost_bps price hside hprice hport
    simp [checkIntrabarStop, hside, hprice, hport]
  · intro trade cost_bps price hside hprice hport
    simp [checkIntrabarStop, hside, hprice, hport, ge_iff_le]
  · norm_num [checkIntrabarStop, abs_of_nonneg]

/-- Witness for C6 (long stop touched at a concrete state, with fees). -/
theorem intrabar_stop_close_spec_inst :
    checkIntrabarStop
        { side := .long, entry_price := 50, stop_trigger := 40,
          quantity := 2, portfolio := 100, fees := 1 } 0 40 =
      some { exit_price := 40, pnl := 2 * (40 - 50) - |(2 : ℚ) * 40| * (0 / 10000),
             pnl_pct := (2 * (40 - 50) - |(2 : ℚ) * 40| * (0 / 10000)) / 100,
             fees := 1 + |(2 : ℚ) * 40| * (0 / 10000),
             exit_reason := "stop_intrabar", trade_status := "closed",
             signal_status := "closed" } :=
  intrabar_stop_close_spec.1
    { side := .long, entry_price := 50, stop_trigger := 40,
      quantity := 2, portfolio := 100, fees := 1 } 0 40
    rfl (by norm_num) (by norm_num)

/-! ## Signal engine (backend/signal_engine.py) -/

/-- Position-sizing block of `_create_signal_and_sim_trade`: returns
`(invested_amount, leverage)`.  The source guards the division with
`portfolio > 0` (else leverage falls back to 1). -/
def resolveSizing (portfolio : ℚ) (invested_amount leverage : Option ℚ) :
    ℚ × ℚ :=
  match invested_amount with
  | some ia => (ia, if 0 < portfolio then ia / portfolio else 1)
  | none =>
    match leverage with
    | some lv => (portfolio * lv, lv)
    | none => (portfolio, 1)

/-- Stop-trigger adjustment of `_create_signal_and_sim_trade`. -/
def stopTriggerPrice (side : Side) (stop_price stop_cross_pct : ℚ) : ℚ :=
  if side = .long then stop_price * (1 - stop_cross_pct)
  else stop_price * (1 + stop_cross_pct)

/-- C7.  SimTrade sizing: with `invested_amount` given, `invested =
invested_amount` and `leverage = invested_amount/portfolio`; else with
`leverage` given, `invested = portfolio·leverage`; else `leverage = 1` and
`invested = portfolio`.  The stop trigger is `stop_price·(1−stop_cross_pct)`
for longs and `stop_price·(1+stop_cross_pct)` for shorts. -/
theorem sim_trade_sizing_stop_trigger :
    ∀ (portfolio ia lv stop_price stop_cross_pct : ℚ),
      0 < portfolio →
      (resolveSizing portfolio (some ia) (some lv) = (ia, ia / portfolio) ∧
       resolveSizing portfolio (some ia) none = (ia, ia / portfolio) ∧
       resolveSizing portfolio none (some lv) = (portfolio * lv, lv) ∧
       resolveSizing portfolio none none = (portfolio, 1)) ∧
      (stopTriggerPrice .long stop_price stop_cross_pct =
         stop_price * (1 - stop_cross_pct) ∧
       stopTriggerPrice .short stop_price stop_cross_pct =
         stop_price * (1 + stop_cross_pct)) := by
  intro portfolio ia lv stop_price stop_cross_pct hport
  refine ⟨⟨?_, ?_, ?_, ?_⟩, ?_, ?_⟩ <;>
    simp [resolveSizing, stopTriggerPrice, hport]

/-- Witness for C7: portfolio 10000 with invested 5000 gives leverage 1/2;
with leverage 2 gives invested 20000 (seed scenario 5). -/
theorem sim_trade_sizing_stop_trigger_inst :
    resolveSizing 10000 (some 5000) none = (5000, 5000 / 10000) ∧
    resolveSizing 10000 none (some 2) = (10000 * 2, 2) ∧
    stopTriggerPrice .long 100 (2/100) = 100 * (1 - 2/100) := by
  have h := sim_trade_sizing_stop_trigger 10000 5000 2 100 (2/100) (by norm_num)
  exact ⟨h.1.2.1, h.1.2.2.1, h.2.1⟩

/-! ## Interval dispatch of the remaining operations (C9) -/

/-- The `_last_closed_candle_time` function (signal_engine.py); `now_ms` is passed
explicitly in place of `time.time()·1000`. -/
def last_closed_candle_time (interval : String) (now_ms : ℤ) :
    Except String ℤ :=
  match INTERVAL_MS interval with
  | none => .error ("Unknown interval: " ++ interval)
  | some step => .ok ((now_ms.fdiv step) * step - step)

/-- The `ensure_candles` function (download_engine.py) with its environment explicit:
`verified` is the `_verified_ranges` entry for the pair, `syncing` whether
the pair is in `_syncing`, `dbTimes` the stored open times.  Launching the
background sync task is a side effect outside the embedding; only the
return value and the raise are modelled. -/
def ensure_candles (verified : Option ℤ) (syncing : Bool) (dbTimes : List ℤ)
    (start_ms end_ms : ℤ) (interval : String) : Except String Bool :=
  if end_ms ≤ verified.getD 0 then .ok true
  else if syncing then .ok false
  else
    match INTERVAL_MS interval with
    | none => .error ("Unknown interval: " ++ interval)
    | some step =>
      let last_required := end_ms - step
      let actual_count :=
        (dbTimes.filter (fun x => decide (start_ms ≤ x ∧ x < end_ms))).length
      let expected_count :=
        (collectTimes step end_ms (alignUp start_ms step)).length
      if last_required ∈ dbTimes ∧ expected_count ≤ actual_count then .ok true
      else .ok false

/-- Outcome of one pending trade in `_fill_pending_entries`; `skipped`
models `continue`, and a raised exception would be `error` (the function
never produces one). -/
inductive FillResult where
  | error (msg : String)
  | skipped
  | filled (entry_price : ℚ) (entry_time : ℤ) (quantity fee : ℚ)
  deriving DecidableEq, Repr

/-- Per-trade body of `_fill_pending_entries`: interval dispatch (an
unknown interval is skipped with `continue`), entry-candle lookup, ticker
fallback after the 5 s grace period, fill arithmetic. -/
def fill_pending_entry (interval : String) (trigger_candle_time : ℤ)
    (dbOpen : Option ℚ) (now_ms : ℤ) (ticker : Option ℚ)
    (invested_amount cost_bps : ℚ) : FillResult :=
  match INTERVAL_MS interval with
  | none => .skipped
  | some step =>
    let next_candle_open := trigger_candle_time + step
    match dbOpen with
    | some o =>
      .filled o next_candle_open (invested_amount / o)
        (invested_amount * (cost_bps / 10000))
    | none =>
      if next_candle_open + 5000 ≤ now_ms then
        match ticker with
        | some p =>
          .filled p next_candle_open (invested_amount / p)
            (invested_amount * (cost_bps / 10000))
        | none => .skipped
      else .skipped

/-- C9 counterexample.  On the unrecognized interval `2x` the live
tracker's pending-entry fill silently skips the trade (`continue`) instead
of failing with a `BadInterval` error. -/
theorem pending_fill_bad_interval_cex :
    fill_pending_entry "2x" 0 none 0 none 1 0 = .skipped ∧
    fill_pending_entry "2x" 0 none 0 none 1 0 ≠
      .error ("Unknown interval: " ++ "2x") := by
  exact ⟨rfl, by decide⟩

/-- C9, amended.  The expected-open-times computation, the last-closed-
candle computation and `ensure_candles` (when neither cache short-circuits)
raise the unknown-interval error on every unrecognized interval; the live
tracker's pending-entry fill instead silently skips the trade and never
produces an error. -/
theorem bad_interval_behavior :
    (∀ (start_ms end_ms : ℤ) (interval : String),
       INTERVAL_MS interval = none →
       expected_open_times start_ms end_ms interval =
         .error ("Unknown interval: " ++ interval)) ∧
    (∀ (interval : String) (now_ms : ℤ),
       INTERVAL_MS interval = none →
       last_closed_candle_time interval now_ms =
         .error ("Unknown interval: " ++ interval)) ∧
    (∀ (verified : Option ℤ) (syncing : Bool) (dbTimes : List ℤ)
       (start_ms end_ms : ℤ) (interval : String),
       INTERVAL_MS interval = none →
       ¬ end_ms ≤ verified.getD 0 → syncing = false →
       ensure_candles verified syncing dbTimes start_ms end_ms interval =
         .error ("Unknown interval: " ++ interval)) ∧
    (∀ (interval : String) (trigger : ℤ) (dbOpen : Option ℚ) (now_ms : ℤ)
       (ticker : Option ℚ) (invested cost_bps : ℚ) (msg : String),
       INTERVAL_MS interval = none →
       fill_pending_entry interval trigger dbOpen now_ms ticker invested
           cost_bps = .skipped ∧
       fill_pending_entry interval trigger dbOpen now_ms ticker invested
           cost_bps ≠ .error msg) := by
  refine ⟨?_, ?_, ?_, ?_⟩
  · intro start_ms end_ms interval h
    simp [expected_open_times, h]
  · intro interval now_ms h
    simp [last_closed_candle_time, h]
  · intro verified syncing dbTimes start_ms end_ms interval h hfast hsync
    simp [ensure_candles, h, hfast, hsync]
  · intro interval trigger dbOpen now_ms ticker invested cost_bps msg h
    refine ⟨by simp [fill_pending_entry, h], by simp [fill_pending_entry, h]⟩

/-- Witness for C9 (amended) at the unrecognized interval `2x`. -/
theorem bad_interval_behavior_inst :
    expected_open_times 0 1000 "2x" = .error ("Unknown interval: " ++ "2x") ∧
    last_closed_candle_time "2x" 0 = .error ("Unknown interval: " ++ "2x") ∧
    ensure_candles none false [] 0 1000 "2x" =
      .error ("Unknown interval: " ++ "2x") ∧
    fill_pending_entry "2x" 5 none 0 none 1 0 = .skipped := by
  refine ⟨bad_interval_behavior.1 0 1000 "2x" rfl,
    bad_interval_behavior.2.1 "2x" 0 rfl,
    bad_interval_behavior.2.2.1 none false [] 0 1000 "2x" rfl (by decide) rfl,
    (bad_interval_behavior.2.2.2 "2x" 5 none 0 none 1 0 "" rfl).1⟩

/-! ## Rate-limit client (backend/binance_client.py) -/

/-- The `RateLimitState` record; `now` (`time.monotonic()`) is passed to `status`
explicitly. -/
structure RateLimitState where
  used_weight : ℤ
  weight_limit : ℤ
  blocked_until : ℚ
  backoff_until : ℚ
  deriving DecidableEq, Repr

/-- The body of `RateLimitState.status`. -/
def rlStatus (s : RateLimitState) (now : ℚ) : String :=
  if now < s.blocked_until then "blocked"
  else if now < s.backoff_until then "backoff"
  else if (9/10 : ℚ) ≤ (s.used_weight : ℚ) / ((max s.weight_limit 1 : ℤ) : ℚ)
    then "warning"
  else "ok"

/-- C10 counterexample.  A state with ratio `1 ≥ 0.9` that is currently
blocked reports `blocked`, not `warning`: the blocked/backoff checks take
precedence over the weight-ratio warning. -/
theorem rate_limit_status_blocked_cex :
    rlStatus { used_weight := 1200, weight_limit := 1200,
               blocked_until := 10, backoff_until := 0 } 0 = "blocked" ∧
    rlStatus { used_weight := 1200, weight_limit := 1200,
               blocked_until := 10, backoff_until := 0 } 0 ≠ "warning" ∧
    (9/10 : ℚ) ≤ (1200 : ℚ) / 1200 := by
  refine ⟨rfl, by decide, by norm_num⟩

/-- C10, amended.  `status()` always returns one of
`ok/warning/backoff/blocked`, and whenever the state is neither blocked nor
in backoff and `used_weight/max(weight_limit,1) ≥ 0.9` it returns
`warning`. -/
theorem rate_limit_status_spec :
    ∀ (s : RateLimitState) (now : ℚ),
      (rlStatus s now = "ok" ∨ rlStatus s now = "warning" ∨
       rlStatus s now = "backoff" ∨ rlStatus s now = "blocked") ∧
      (¬ now < s.blocked_until → ¬ now < s.backoff_until →
        (9/10 : ℚ) ≤ (s.used_weight : ℚ) / ((max s.weight_limit 1 : ℤ) : ℚ) →
        rlStatus s now = "warning") := by
  intro s now
  constructor
  · unfold rlStatus
    split_ifs <;> simp
  · intro h1 h2 h3
    unfold rlStatus
    rw [if_neg h1, if_neg h2, if_pos h3]

/-- Witness for C10 at a concrete warning state. -/
theorem rate_limit_status_spec_inst :
    rlStatus { used_weight := 1100, weight_limit := 1200,
               blocked_until := 0, backoff_until := 0 } 5 = "warning" :=
  (rate_limit_status_spec
    { used_weight := 1100, weight_limit := 1200,
      blocked_until := 0, backoff_until := 0 } 5).2
    (by norm_num) (by norm_num) (by norm_num)

end TradingTool
